import Mathlib

/-!
Shallow embedding of `src/animated/qubits.py`, a manim script that animates
single-qubit gate actions (X, Y, Z, H) on the Bloch sphere.  Vectors are
embedded as triples of real numbers; numpy's trigonometry, dot, cross and
norm become their exact real counterparts; manim's `rotate_about_origin`
becomes the Rodrigues rotation about the normalized axis, which is the
rotation manim's `rotation_matrix` implements.  Each scene class's single
`qubit(...)` call is embedded as a record of its constant arguments, and the
`wait`/`play` sequence at the end of `qubit` as a list of timeline steps.
-/

namespace Qubits

/-- A vector in ℝ³, as numpy's 3-arrays in the script. -/
@[ext]
structure Vec3 where
  x : ℝ
  y : ℝ
  z : ℝ

namespace Vec3

instance : Zero Vec3 := ⟨⟨0, 0, 0⟩⟩

instance : Add Vec3 := ⟨fun a b => ⟨a.x + b.x, a.y + b.y, a.z + b.z⟩⟩

instance : Sub Vec3 := ⟨fun a b => ⟨a.x - b.x, a.y - b.y, a.z - b.z⟩⟩

instance : Neg Vec3 := ⟨fun a => ⟨-a.x, -a.y, -a.z⟩⟩

instance : SMul ℝ Vec3 := ⟨fun c a => ⟨c * a.x, c * a.y, c * a.z⟩⟩

@[simp] lemma zero_x : (0 : Vec3).x = 0 := rfl

@[simp] lemma zero_y : (0 : Vec3).y = 0 := rfl

@[simp] lemma zero_z : (0 : Vec3).z = 0 := rfl

@[simp] lemma add_x (a b : Vec3) : (a + b).x = a.x + b.x := rfl

@[simp] lemma add_y (a b : Vec3) : (a + b).y = a.y + b.y := rfl

@[simp] lemma add_z (a b : Vec3) : (a + b).z = a.z + b.z := rfl

@[simp] lemma sub_x (a b : Vec3) : (a - b).x = a.x - b.x := rfl

@[simp] lemma sub_y (a b : Vec3) : (a - b).y = a.y - b.y := rfl

@[simp] lemma sub_z (a b : Vec3) : (a - b).z = a.z - b.z := rfl

@[simp] lemma neg_x (a : Vec3) : (-a).x = -a.x := rfl

@[simp] lemma neg_y (a : Vec3) : (-a).y = -a.y := rfl

@[simp] lemma neg_z (a : Vec3) : (-a).z = -a.z := rfl

@[simp] lemma smul_x (c : ℝ) (a : Vec3) : (c • a).x = c * a.x := rfl

@[simp] lemma smul_y (c : ℝ) (a : Vec3) : (c • a).y = c * a.y := rfl

@[simp] lemma smul_z (c : ℝ) (a : Vec3) : (c • a).z = c * a.z := rfl

/-- Dot product of two 3-vectors, as `np.dot`. -/
def dot (a b : Vec3) : ℝ := a.x * b.x + a.y * b.y + a.z * b.z

/-- Cross product of two 3-vectors, as `np.cross`. -/
def cross (a b : Vec3) : Vec3 :=
  ⟨a.y * b.z - a.z * b.y, a.z * b.x - a.x * b.z, a.x * b.y - a.y * b.x⟩

/-- Euclidean norm, as `np.linalg.norm`. -/
noncomputable def norm (a : Vec3) : ℝ := Real.sqrt (dot a a)

/-- A vector scaled to unit length, as manim's `rotation_matrix` does with
its axis argument (with junk value `0` on the zero vector, where the library
would produce NaNs). -/
noncomputable def normalize (a : Vec3) : Vec3 := (norm a)⁻¹ • a

lemma dot_self_nonneg (a : Vec3) : 0 ≤ dot a a := by
  unfold dot
  nlinarith [mul_self_nonneg a.x, mul_self_nonneg a.y, mul_self_nonneg a.z]

@[simp] lemma norm_zero : norm (0 : Vec3) = 0 := by
  simp [norm, dot]

lemma norm_nonneg (a : Vec3) : 0 ≤ norm a := Real.sqrt_nonneg _

lemma sq_norm (a : Vec3) : norm a * norm a = dot a a :=
  Real.mul_self_sqrt (dot_self_nonneg a)

lemma norm_eq_zero_iff (a : Vec3) : norm a = 0 ↔ a = 0 := by
  constructor
  · intro h
    have hd : dot a a = 0 := by
      have := sq_norm a
      rw [h] at this; linarith
    unfold dot at hd
    have hx : a.x = 0 := by
      nlinarith [mul_self_nonneg a.x, mul_self_nonneg a.y, mul_self_nonneg a.z]
    have hy : a.y = 0 := by
      nlinarith [mul_self_nonneg a.x, mul_self_nonneg a.y, mul_self_nonneg a.z]
    have hz : a.z = 0 := by
      nlinarith [mul_self_nonneg a.x, mul_self_nonneg a.y, mul_self_nonneg a.z]
    ext <;> simp [hx, hy, hz]
  · intro h; rw [h]; exact norm_zero

lemma norm_eq_one_iff (a : Vec3) : norm a = 1 ↔ dot a a = 1 := by
  constructor
  · intro h
    have := sq_norm a
    rw [h] at this; linarith
  · intro h
    rw [norm, h, Real.sqrt_one]

lemma dot_normalize_self (a : Vec3) (ha : a ≠ 0) :
    dot (normalize a) (normalize a) = 1 := by
  have hn : norm a ≠ 0 := fun h => ha ((norm_eq_zero_iff a).mp h)
  have hs := sq_norm a
  unfold normalize dot
  simp only [smul_x, smul_y, smul_z]
  unfold dot at hs
  field_simp
  linarith

lemma normalize_eq_self (a : Vec3) (ha : norm a = 1) : normalize a = a := by
  unfold normalize
  rw [ha]; ext <;> simp

end Vec3

/-- Degrees-to-radians factor, manim's `DEGREES` constant. -/
noncomputable def DEGREES : ℝ := Real.pi / 180

/-- Rodrigues rotation of `v` by angle `θ` (radians) about the unit vector
`a`, the standard right-handed rotation that manim's `rotation_matrix`
computes for a normalized axis. -/
noncomputable def rodrigues (a : Vec3) (θ : ℝ) (v : Vec3) : Vec3 :=
  Real.cos θ • v + Real.sin θ • Vec3.cross a v +
    ((1 - Real.cos θ) * Vec3.dot a v) • a

/-- Rotation of `v` about the origin by `θ` radians about `axis`, as manim's
`rotate_about_origin(angle, axis)`: the axis is normalized first. -/
noncomputable def rotateAboutOrigin (θ : ℝ) (axis v : Vec3) : Vec3 :=
  rodrigues (Vec3.normalize axis) θ v

/-- The starting point computed at the top of `qubit` from
`start_point = [a, b]` (interpreted in degrees):
`[cos(a°)·sin(b°), sin(a°)·sin(b°), cos(b°)]`. -/
noncomputable def startPoint (a b : ℝ) : Vec3 :=
  ⟨Real.cos (a * DEGREES) * Real.sin (b * DEGREES),
   Real.sin (a * DEGREES) * Real.sin (b * DEGREES),
   Real.cos (b * DEGREES)⟩

/-- The unnormalized in-plane component `x = point - np.dot(point, z) * z`
computed in `qubit`. -/
noncomputable def xRaw (point z : Vec3) : Vec3 := point - Vec3.dot point z • z

/-- The radius `r = np.linalg.norm(x)` computed in `qubit`. -/
noncomputable def rComp (point z : Vec3) : ℝ := Vec3.norm (xRaw point z)

/-- The normalized frame vector after `x /= r` in `qubit` (the division is
unguarded in the source; here division by zero yields the junk value `0`). -/
noncomputable def xComp (point z : Vec3) : Vec3 :=
  (rComp point z)⁻¹ • xRaw point z

/-- The frame vector `y = np.cross(z, x)` computed in `qubit`. -/
noncomputable def yComp (point z : Vec3) : Vec3 := Vec3.cross z (xComp point z)

/-- Characterization of `R.from_matrix([x, y, z]).as_rotvec()` from scipy's
documented semantics (scipy is an external library, so only its contract is
embedded): the matrix with rows `x, y, z` maps `x, y, z` to the standard
basis, and the returned rotation vector `rv` encodes that same rotation as a
rotation by `norm rv` radians about the axis `rv`. -/
noncomputable def IsRotvecOfFrame (x y z rv : Vec3) : Prop :=
  rotateAboutOrigin (Vec3.norm rv) rv x = ⟨1, 0, 0⟩ ∧
  rotateAboutOrigin (Vec3.norm rv) rv y = ⟨0, 1, 0⟩ ∧
  rotateAboutOrigin (Vec3.norm rv) rv z = ⟨0, 0, 1⟩

/-- Endpoint of manim's `Arc(r, 0, t)` after `.shift([0, 0, h])`: the arc is
drawn in the horizontal plane from angle `0` to `t` with radius `r`, so its
moving end sits at `(r·cos t, r·sin t, h)`. -/
noncomputable def arcTip (r t h : ℝ) : Vec3 := ⟨r * Real.cos t, r * Real.sin t, h⟩

/-- Endpoint of the arc glyph of `qubit`: the shifted arc end, rotated about
the origin by `angle` about `rotvec` as the source's `.rotate_about_origin`
call does. -/
noncomputable def arcGlyphTip (r h angle : ℝ) (rotvec : Vec3) (t : ℝ) : Vec3 :=
  rotateAboutOrigin angle rotvec (arcTip r t h)

/-- Tip of the moving `vec` arrow at tracker value `rot` (degrees): the
updater rebuilds the arrow from `vec_ref` and rotates about the origin by
`rot * DEGREES` about `rotate_axis`. -/
noncomputable def vecTip (point axis : Vec3) (rot : ℝ) : Vec3 :=
  rotateAboutOrigin (rot * DEGREES) axis point

/-- Position of the moving `state_psi` label at tracker value `rot`
(degrees): `Dot3D(point * 1.25)` rotated about the origin, per the updater. -/
noncomputable def statePsiPos (point axis : Vec3) (rot : ℝ) : Vec3 :=
  rotateAboutOrigin (rot * DEGREES) axis ((1.25 : ℝ) • point)

/-- Position at which `state_psi_end` is placed: `Dot3D(point * 1.25)`
rotated about the origin by the full `rotate_angle * DEGREES`. -/
noncomputable def statePsiEndPos (point axis : Vec3) (angle : ℝ) : Vec3 :=
  rotateAboutOrigin (angle * DEGREES) axis ((1.25 : ℝ) • point)

/-- The gate axes defined at the top of the script. -/
def Xaxis : Vec3 := ⟨1, 0, 0⟩

/-- The Y gate axis. -/
def Yaxis : Vec3 := ⟨0, 1, 0⟩

/-- The Z gate axis. -/
def Zaxis : Vec3 := ⟨0, 0, 1⟩

/-- The Hadamard axis `[1/sqrt(2), 0, 1/sqrt(2)]`, written inline in the H
scene classes. -/
noncomputable def Haxis : Vec3 := ⟨1 / Real.sqrt 2, 0, 1 / Real.sqrt 2⟩

/-- The constant arguments of the single `qubit(...)` call made by a scene
class's `construct` method. -/
structure SceneSpec where
  start_point : ℝ × ℝ
  rotate_axis : Vec3
  rotate_angle : ℝ
  show_basis : Bool
  start_name : String
  end_name : String
  end_coef : Option String

namespace Scenes

/-- Scene `X0`: `qubit(self, [0, 0], Xaxis, 180, False, "|0⟩", "|1⟩")`. -/
def X0 : SceneSpec := ⟨(0, 0), Xaxis, 180, false, "|0\\rangle", "|1\\rangle", none⟩

/-- Scene `X1`. -/
def X1 : SceneSpec := ⟨(0, 180), Xaxis, 180, false, "|1\\rangle", "|0\\rangle", none⟩

/-- Scene `X`. -/
def X : SceneSpec := ⟨(45, 45), Xaxis, 180, true, "|\\psi\\rangle", "|\\psi\\rangle", none⟩

/-- Scene `Y0`, with phase coefficient `"i"`. -/
def Y0 : SceneSpec := ⟨(0, 0), Yaxis, 180, false, "|0\\rangle", "|1\\rangle", some "i"⟩

/-- Scene `Y1`, with phase coefficient `"-i"`. -/
def Y1 : SceneSpec := ⟨(0, 180), Yaxis, 180, false, "|1\\rangle", "|0\\rangle", some "-i"⟩

/-- Scene `Y`. -/
def Y : SceneSpec := ⟨(45, 45), Yaxis, 180, true, "|\\psi\\rangle", "|\\psi\\rangle", none⟩

/-- Scene `Z0`. -/
def Z0 : SceneSpec := ⟨(0, 0), Zaxis, 180, false, "|0\\rangle", "|0\\rangle", none⟩

/-- Scene `Z1`, with phase coefficient `"-"`. -/
def Z1 : SceneSpec := ⟨(0, 180), Zaxis, 180, false, "|1\\rangle", "|1\\rangle", some "-"⟩

/-- Scene `Z`. -/
def Z : SceneSpec := ⟨(45, 45), Zaxis, 180, true, "|\\psi\\rangle", "|\\psi\\rangle", none⟩

/-- Scene `H0`, axis written inline as `[1/sqrt(2), 0, 1/sqrt(2)]`. -/
noncomputable def H0 : SceneSpec :=
  ⟨(0, 0), ⟨1 / Real.sqrt 2, 0, 1 / Real.sqrt 2⟩, 180, false, "|0\\rangle", "|+\\rangle", none⟩

/-- Scene `H1`, axis written inline as `[1/sqrt(2), 0, 1/sqrt(2)]`. -/
noncomputable def H1 : SceneSpec :=
  ⟨(0, 180), ⟨1 / Real.sqrt 2, 0, 1 / Real.sqrt 2⟩, 180, false, "|1\\rangle", "|-\\rangle", none⟩

/-- Scene `H`. -/
noncomputable def H : SceneSpec :=
  ⟨(45, 45), ⟨1 / Real.sqrt 2, 0, 1 / Real.sqrt 2⟩, 180, true, "|\\psi\\rangle", "|\\psi\\rangle", none⟩

end Scenes

/-- All twelve scene classes of the script, in source order. -/
noncomputable def allScenes : List SceneSpec :=
  [Scenes.X0, Scenes.X1, Scenes.X, Scenes.Y0, Scenes.Y1, Scenes.Y,
   Scenes.Z0, Scenes.Z1, Scenes.Z, Scenes.H0, Scenes.H1, Scenes.H]

/-- The starting point of a scene's `qubit` call. -/
noncomputable def pointOf (s : SceneSpec) : Vec3 :=
  startPoint s.start_point.1 s.start_point.2

/-- The label animation built in `qubit`: with a coefficient it is an
`AnimationGroup` of the `Transform` and a `Create` of the coefficient label,
otherwise the `Transform` alone. -/
inductive StateAnim where
  | transformOnly
  | groupWithCoef (coef : String)
deriving DecidableEq

/-- The `end_coef` branch of `qubit` choosing `state_anim`. -/
def stateAnimOf : Option String → StateAnim
  | some c => StateAnim.groupWithCoef c
  | none => StateAnim.transformOnly

/-- The animation passed to a `play` call of `qubit`: either the tracker
increment `rot.animate.increment_value(rotate_angle)` or the label swap
`state_anim`. -/
inductive AnimKind where
  | rotIncrement (angle : ℝ)
  | labelAnim (anim : StateAnim)

/-- One step of the emitted timeline: a `gl.wait(d)` or a
`gl.play(anim, run_time)`. -/
inductive TimelineStep where
  | wait (duration : ℝ)
  | play (anim : AnimKind) (runTime : ℝ)

/-- Duration in seconds contributed by one timeline step. -/
def stepDuration : TimelineStep → ℝ
  | TimelineStep.wait d => d
  | TimelineStep.play _ r => r

/-- The wait/play sequence emitted at the end of every `qubit` call. -/
def qubitTimeline (s : SceneSpec) : List TimelineStep :=
  [TimelineStep.wait 0.5,
   TimelineStep.play (AnimKind.rotIncrement s.rotate_angle) 1.5,
   TimelineStep.play (AnimKind.labelAnim (stateAnimOf s.end_coef)) 0.5,
   TimelineStep.wait 0.5]

lemma dot_comm (a b : Vec3) : Vec3.dot a b = Vec3.dot b a := by
  unfold Vec3.dot; ring

lemma dot_smul_left (c : ℝ) (a b : Vec3) :
    Vec3.dot (c • a) b = c * Vec3.dot a b := by
  unfold Vec3.dot; simp; ring

lemma dot_cross_self_left (a b : Vec3) : Vec3.dot a (Vec3.cross a b) = 0 := by
  unfold Vec3.dot Vec3.cross; simp; ring

lemma dot_cross_self_right (a b : Vec3) : Vec3.dot b (Vec3.cross a b) = 0 := by
  unfold Vec3.dot Vec3.cross; simp; ring

lemma dot_cross_left_self (a b : Vec3) : Vec3.dot (Vec3.cross a b) a = 0 := by
  unfold Vec3.dot Vec3.cross; simp; ring

lemma cross_cross (a b c : Vec3) :
    Vec3.cross a (Vec3.cross b c) = Vec3.dot a c • b - Vec3.dot a b • c := by
  unfold Vec3.dot Vec3.cross
  ext <;> simp <;> ring

lemma dot_cross_lagrange (a b : Vec3) :
    Vec3.dot (Vec3.cross a b) (Vec3.cross a b) =
      Vec3.dot a a * Vec3.dot b b - Vec3.dot a b ^ 2 := by
  unfold Vec3.dot Vec3.cross; simp; ring

lemma norm_smul_abs (c : ℝ) (v : Vec3) :
    Vec3.norm (c • v) = |c| * Vec3.norm v := by
  unfold Vec3.norm
  have h : Vec3.dot (c • v) (c • v) = c ^ 2 * Vec3.dot v v := by
    unfold Vec3.dot; simp; ring
  rw [h, Real.sqrt_mul (sq_nonneg c), Real.sqrt_sq_eq_abs]

lemma deg180 : (180 : ℝ) * DEGREES = Real.pi := by
  unfold DEGREES; ring

lemma rodrigues_zero_angle (a v : Vec3) : rodrigues a 0 v = v := by
  unfold rodrigues
  ext <;> simp

lemma rodrigues_smul (a : Vec3) (θ c : ℝ) (v : Vec3) :
    rodrigues a θ (c • v) = c • rodrigues a θ v := by
  unfold rodrigues Vec3.cross Vec3.dot
  ext <;> simp <;> ring

lemma rodrigues_combo (a : Vec3) (θ b₁ b₂ b₃ : ℝ) (u v w : Vec3) :
    rodrigues a θ (b₁ • u + b₂ • v + b₃ • w) =
      b₁ • rodrigues a θ u + b₂ • rodrigues a θ v + b₃ • rodrigues a θ w := by
  unfold rodrigues Vec3.cross Vec3.dot
  ext <;> simp <;> ring

lemma rodrigues_pi (a v : Vec3) :
    rodrigues a Real.pi v = -v + (2 * Vec3.dot a v) • a := by
  unfold rodrigues
  ext <;>
    simp only [Real.cos_pi, Real.sin_pi, Vec3.add_x, Vec3.add_y, Vec3.add_z,
      Vec3.neg_x, Vec3.neg_y, Vec3.neg_z, Vec3.smul_x, Vec3.smul_y,
      Vec3.smul_z] <;>
    ring

/-- Composing the Rodrigues rotation about a unit axis with the rotation by
the opposite angle recovers the original vector. -/
lemma rodrigues_inv (u : Vec3) (hu : Vec3.dot u u = 1) (θ : ℝ) (w : Vec3) :
    rodrigues u (-θ) (rodrigues u θ w) = w := by
  have hc := Real.sin_sq_add_cos_sq θ
  unfold Vec3.dot at hu
  unfold rodrigues Vec3.cross Vec3.dot
  ext
  · simp [Real.cos_neg, Real.sin_neg]
    linear_combination
      (Real.sin θ ^ 2 * w.x +
        (1 - Real.cos θ) ^ 2 * (u.x * w.x + u.y * w.y + u.z * w.z) * u.x) * hu +
      (w.x - (u.x * w.x + u.y * w.y + u.z * w.z) * u.x) * hc
  · simp [Real.cos_neg, Real.sin_neg]
    linear_combination
      (Real.sin θ ^ 2 * w.y +
        (1 - Real.cos θ) ^ 2 * (u.x * w.x + u.y * w.y + u.z * w.z) * u.y) * hu +
      (w.y - (u.x * w.x + u.y * w.y + u.z * w.z) * u.y) * hc
  · simp [Real.cos_neg, Real.sin_neg]
    linear_combination
      (Real.sin θ ^ 2 * w.z +
        (1 - Real.cos θ) ^ 2 * (u.x * w.x + u.y * w.y + u.z * w.z) * u.z) * hu +
      (w.z - (u.x * w.x + u.y * w.y + u.z * w.z) * u.z) * hc

@[simp] lemma normalize_zero : Vec3.normalize (0 : Vec3) = 0 := by
  unfold Vec3.normalize
  ext <;> simp

/-- Rotating by the negative of the rotation vector's length undoes rotating
by its length, for any rotation vector (including the zero vector, where
both angles are zero). -/
lemma rotateAboutOrigin_norm_inv (rv w : Vec3) :
    rotateAboutOrigin (-(Vec3.norm rv)) rv
      (rotateAboutOrigin (Vec3.norm rv) rv w) = w := by
  by_cases h : rv = 0
  · subst h
    simp [rotateAboutOrigin, rodrigues_zero_angle]
  · unfold rotateAboutOrigin
    exact rodrigues_inv _ (Vec3.dot_normalize_self rv h) _ _

lemma rotateAboutOrigin_unit (a : Vec3) (ha : Vec3.norm a = 1) (θ : ℝ)
    (v : Vec3) : rotateAboutOrigin θ a v = rodrigues a θ v := by
  unfold rotateAboutOrigin
  rw [Vec3.normalize_eq_self a ha]

lemma rot180 (a : Vec3) (ha : Vec3.norm a = 1) (v : Vec3) :
    rotateAboutOrigin (180 * DEGREES) a v = -v + (2 * Vec3.dot a v) • a := by
  rw [rotateAboutOrigin_unit a ha, deg180, rodrigues_pi]

lemma norm_Xaxis : Vec3.norm Xaxis = 1 := by
  rw [Vec3.norm_eq_one_iff]
  unfold Vec3.dot Xaxis
  norm_num

lemma norm_Yaxis : Vec3.norm Yaxis = 1 := by
  rw [Vec3.norm_eq_one_iff]
  unfold Vec3.dot Yaxis
  norm_num

lemma norm_Zaxis : Vec3.norm Zaxis = 1 := by
  rw [Vec3.norm_eq_one_iff]
  unfold Vec3.dot Zaxis
  norm_num

lemma sqrt_two_mul_self : Real.sqrt 2 * Real.sqrt 2 = 2 :=
  Real.mul_self_sqrt (by norm_num)

lemma sqrt_two_ne_zero : Real.sqrt 2 ≠ 0 := by
  have : (0 : ℝ) < Real.sqrt 2 := Real.sqrt_pos.mpr (by norm_num)
  linarith

lemma norm_Haxis : Vec3.norm Haxis = 1 := by
  rw [Vec3.norm_eq_one_iff]
  unfold Vec3.dot Haxis
  field_simp

lemma startPoint_0_0 : startPoint 0 0 = ⟨0, 0, 1⟩ := by
  unfold startPoint
  ext <;> simp

lemma startPoint_0_180 : startPoint 0 180 = ⟨0, 0, -1⟩ := by
  unfold startPoint
  rw [deg180]
  ext <;> simp

/-- C4: for every `start_point = [a, b]` in degrees, the point
`[cos(a°)·sin(b°), sin(a°)·sin(b°), cos(b°)]` computed by `qubit` has
Euclidean norm exactly 1 in exact real arithmetic, so the starting point
always lies on the unit sphere. -/
theorem C4_start_point_on_unit_sphere (a b : ℝ) :
    Vec3.norm (startPoint a b) = 1 := by
  rw [Vec3.norm_eq_one_iff]
  simp only [startPoint, Vec3.dot]
  linear_combination Real.sin (b * DEGREES) ^ 2 * Real.sin_sq_add_cos_sq (a * DEGREES) +
    Real.sin_sq_add_cos_sq (b * DEGREES)

/-- C3: the radius `r = norm(point - (point.z)z)` computed before the
unguarded division `x /= r` vanishes exactly when the start point is
parallel to the unit rotation axis, and this zero case is actually reached
by the `Z0` and `Z1` scenes, whose start points are the poles and whose axis
is `[0, 0, 1]` - so the division's precondition `r != 0` is violated there. -/
theorem C3_unguarded_division_precondition_violated :
    (∀ p z : Vec3, Vec3.norm z = 1 →
      (rComp p z = 0 ↔ ∃ c : ℝ, p = c • z)) ∧
    rComp (pointOf Scenes.Z0) Scenes.Z0.rotate_axis = 0 ∧
    rComp (pointOf Scenes.Z1) Scenes.Z1.rotate_axis = 0 := by
  refine ⟨?_, ?_, ?_⟩
  · intro p z hz
    have hzz : Vec3.dot z z = 1 := (Vec3.norm_eq_one_iff z).mp hz
    unfold rComp
    rw [Vec3.norm_eq_zero_iff]
    constructor
    · intro h
      refine ⟨Vec3.dot p z, ?_⟩
      unfold xRaw at h
      have hx := congrArg Vec3.x h
      have hy := congrArg Vec3.y h
      have hz2 := congrArg Vec3.z h
      simp at hx hy hz2
      ext <;> simp <;> linarith
    · rintro ⟨c, rfl⟩
      unfold xRaw
      have hd : Vec3.dot (c • z) z = c := by
        rw [dot_smul_left, hzz, mul_one]
      rw [hd]
      ext <;> simp
  · show rComp (startPoint 0 0) Zaxis = 0
    rw [startPoint_0_0]
    unfold rComp
    rw [Vec3.norm_eq_zero_iff]
    unfold xRaw Zaxis
    simp only [Vec3.dot]
    ext <;> norm_num
  · show rComp (startPoint 0 180) Zaxis = 0
    rw [startPoint_0_180]
    unfold rComp
    rw [Vec3.norm_eq_zero_iff]
    unfold xRaw Zaxis
    simp only [Vec3.dot]
    ext <;> norm_num

/-- Witness for C3: the equivalence instantiated at a concrete point and
axis, together with the concrete zero radius of scene `Z0`. -/
theorem C3_unguarded_division_precondition_violated_witness :
    (rComp ⟨1, 0, 0⟩ ⟨0, 0, 1⟩ = 0 ↔ ∃ c : ℝ, (⟨1, 0, 0⟩ : Vec3) = c • ⟨0, 0, 1⟩) ∧
    rComp (pointOf Scenes.Z0) Scenes.Z0.rotate_axis = 0 := by
  constructor
  · refine C3_unguarded_division_precondition_violated.1 ⟨1, 0, 0⟩ ⟨0, 0, 1⟩ ?_
    rw [Vec3.norm_eq_one_iff]
    simp [Vec3.dot]
  · exact C3_unguarded_division_precondition_violated.2.1

/-- C7: the timeline emitted by `qubit` is the same for every argument
record: a 0.5 s wait, a 1.5 s rotation play, a 0.5 s label play and a 0.5 s
wait, whose durations sum to 3.0 s. -/
theorem C7_fixed_three_second_timeline (s : SceneSpec) :
    (qubitTimeline s).map stepDuration = [0.5, 1.5, 0.5, 0.5] ∧
    ((qubitTimeline s).map stepDuration).sum = 3 := by
  constructor
  · rfl
  · norm_num [qubitTimeline, stepDuration]

/-- C8: in the timeline emitted by `qubit`, the rotation play (incrementing
the tracker by `rotate_angle`) occurs at a strictly earlier position than
the label-swap play, and both occur: the label swap happens only after the
rotation play. -/
theorem C8_rotation_play_precedes_label_play (s : SceneSpec) :
    (∃ i j : ℕ, i < j ∧
      (qubitTimeline s)[i]? =
        some (TimelineStep.play (AnimKind.rotIncrement s.rotate_angle) 1.5) ∧
      (qubitTimeline s)[j]? =
        some (TimelineStep.play
          (AnimKind.labelAnim (stateAnimOf s.end_coef)) 0.5)) ∧
    ∀ i j : ℕ,
      (qubitTimeline s)[i]? =
        some (TimelineStep.play (AnimKind.rotIncrement s.rotate_angle) 1.5) →
      (qubitTimeline s)[j]? =
        some (TimelineStep.play
          (AnimKind.labelAnim (stateAnimOf s.end_coef)) 0.5) →
      i < j := by
  constructor
  · exact ⟨1, 2, by norm_num, rfl, rfl⟩
  · intro i j hi hj
    rcases i with _ | _ | _ | _ | n <;> rcases j with _ | _ | _ | _ | m <;>
      simp_all [qubitTimeline]

/-- Witness for C8: in scene `X0`, the rotation play sits at index 1 and the
label play at index 2, and the theorem yields `1 < 2` from those facts. -/
theorem C8_rotation_play_precedes_label_play_witness :
    (qubitTimeline Scenes.X0)[1]? =
      some (TimelineStep.play
        (AnimKind.rotIncrement Scenes.X0.rotate_angle) 1.5) ∧
    (qubitTimeline Scenes.X0)[2]? =
      some (TimelineStep.play
        (AnimKind.labelAnim (stateAnimOf Scenes.X0.end_coef)) 0.5) ∧
    (1 : ℕ) < 2 :=
  ⟨rfl, rfl, (C8_rotation_play_precedes_label_play Scenes.X0).2 1 2 rfl rfl⟩

/-- C10: the label animation of `qubit` is a grouped Transform-plus-Create
exactly when a phase coefficient is passed, and among the scenes exactly
`Y0` (with `"i"`), `Y1` (with `"-i"`) and `Z1` (with `"-"`) pass one. -/
theorem C10_coefficient_branch :
    (∀ o : Option String,
      stateAnimOf o = StateAnim.transformOnly ↔ o = none) ∧
    (∀ (o : Option String) (c : String),
      stateAnimOf o = StateAnim.groupWithCoef c ↔ o = some c) ∧
    allScenes.map SceneSpec.end_coef =
      [none, none, none, some "i", some "-i", none,
       none, some "-", none, none, none, none] := by
  refine ⟨?_, ?_, rfl⟩
  · intro o; cases o <;> simp [stateAnimOf]
  · intro o c; cases o <;> simp [stateAnimOf]

/-- C6: every scene record rotates by exactly 180 degrees; the axes are the
gate axes, `Xaxis` for the X scenes, `Yaxis` for the Y scenes, `Zaxis` for
the Z scenes and `[1/sqrt 2, 0, 1/sqrt 2]` for the H scenes; and each of
those axes is a unit vector. -/
theorem C6_scene_axes_and_angles :
    allScenes.map SceneSpec.rotate_angle = List.replicate 12 180 ∧
    allScenes.map SceneSpec.rotate_axis =
      [Xaxis, Xaxis, Xaxis, Yaxis, Yaxis, Yaxis,
       Zaxis, Zaxis, Zaxis, Haxis, Haxis, Haxis] ∧
    Vec3.norm Xaxis = 1 ∧ Vec3.norm Yaxis = 1 ∧
    Vec3.norm Zaxis = 1 ∧ Vec3.norm Haxis = 1 :=
  ⟨rfl, rfl, norm_Xaxis, norm_Yaxis, norm_Zaxis, norm_Haxis⟩

/-- End position of a scene's rotated start point: the tip of the moving
vector once the tracker has reached the scene's full `rotate_angle`. -/
noncomputable def rotEnd (s : SceneSpec) : Vec3 :=
  vecTip (pointOf s) s.rotate_axis s.rotate_angle

/-- C1: for each basis-state scene, rotating the computed start point by 180
degrees about the scene's axis yields the Bloch-sphere position of the
claimed end state: `X0` and `Y0` map the north pole to the south pole (end
label `|1⟩`), `X1` and `Y1` map the south pole to the north pole (end label
`|0⟩`), `Z0` and `Z1` leave their pole fixed, `H0` maps `[0,0,1]` to
`[1,0,0]` (end label `|+⟩`) and `H1` maps `[0,0,-1]` to `[-1,0,0]` (end
label `|-⟩`). -/
theorem C1_basis_scene_rotation_targets :
    (pointOf Scenes.X0 = ⟨0, 0, 1⟩ ∧ rotEnd Scenes.X0 = ⟨0, 0, -1⟩ ∧
      Scenes.X0.end_name = "|1\\rangle") ∧
    (pointOf Scenes.X1 = ⟨0, 0, -1⟩ ∧ rotEnd Scenes.X1 = ⟨0, 0, 1⟩ ∧
      Scenes.X1.end_name = "|0\\rangle") ∧
    (pointOf Scenes.Y0 = ⟨0, 0, 1⟩ ∧ rotEnd Scenes.Y0 = ⟨0, 0, -1⟩ ∧
      Scenes.Y0.end_name = "|1\\rangle") ∧
    (pointOf Scenes.Y1 = ⟨0, 0, -1⟩ ∧ rotEnd Scenes.Y1 = ⟨0, 0, 1⟩ ∧
      Scenes.Y1.end_name = "|0\\rangle") ∧
    (pointOf Scenes.Z0 = ⟨0, 0, 1⟩ ∧ rotEnd Scenes.Z0 = ⟨0, 0, 1⟩ ∧
      Scenes.Z0.end_name = "|0\\rangle") ∧
    (pointOf Scenes.Z1 = ⟨0, 0, -1⟩ ∧ rotEnd Scenes.Z1 = ⟨0, 0, -1⟩ ∧
      Scenes.Z1.end_name = "|1\\rangle") ∧
    (pointOf Scenes.H0 = ⟨0, 0, 1⟩ ∧ rotEnd Scenes.H0 = ⟨1, 0, 0⟩ ∧
      Scenes.H0.end_name = "|+\\rangle") ∧
    (pointOf Scenes.H1 = ⟨0, 0, -1⟩ ∧ rotEnd Scenes.H1 = ⟨-1, 0, 0⟩ ∧
      Scenes.H1.end_name = "|-\\rangle") := by
  have hX0 : rotEnd Scenes.X0 = ⟨0, 0, -1⟩ := by
    show rotateAboutOrigin ((180 : ℝ) * DEGREES) Xaxis (startPoint 0 0) = _
    rw [startPoint_0_0, rot180 Xaxis norm_Xaxis]
    unfold Xaxis
    simp only [Vec3.dot]
    ext <;> norm_num
  have hX1 : rotEnd Scenes.X1 = ⟨0, 0, 1⟩ := by
    show rotateAboutOrigin ((180 : ℝ) * DEGREES) Xaxis (startPoint 0 180) = _
    rw [startPoint_0_180, rot180 Xaxis norm_Xaxis]
    unfold Xaxis
    simp only [Vec3.dot]
    ext <;> norm_num
  have hY0 : rotEnd Scenes.Y0 = ⟨0, 0, -1⟩ := by
    show rotateAboutOrigin ((180 : ℝ) * DEGREES) Yaxis (startPoint 0 0) = _
    rw [startPoint_0_0, rot180 Yaxis norm_Yaxis]
    unfold Yaxis
    simp only [Vec3.dot]
    ext <;> norm_num
  have hY1 : rotEnd Scenes.Y1 = ⟨0, 0, 1⟩ := by
    show rotateAboutOrigin ((180 : ℝ) * DEGREES) Yaxis (startPoint 0 180) = _
    rw [startPoint_0_180, rot180 Yaxis norm_Yaxis]
    unfold Yaxis
    simp only [Vec3.dot]
    ext <;> norm_num
  have hZ0 : rotEnd Scenes.Z0 = ⟨0, 0, 1⟩ := by
    show rotateAboutOrigin ((180 : ℝ) * DEGREES) Zaxis (startPoint 0 0) = _
    rw [startPoint_0_0, rot180 Zaxis norm_Zaxis]
    unfold Zaxis
    simp only [Vec3.dot]
    ext <;> norm_num
  have hZ1 : rotEnd Scenes.Z1 = ⟨0, 0, -1⟩ := by
    show rotateAboutOrigin ((180 : ℝ) * DEGREES) Zaxis (startPoint 0 180) = _
    rw [startPoint_0_180, rot180 Zaxis norm_Zaxis]
    unfold Zaxis
    simp only [Vec3.dot]
    ext <;> norm_num
  have hH0 : rotEnd Scenes.H0 = ⟨1, 0, 0⟩ := by
    show rotateAboutOrigin ((180 : ℝ) * DEGREES) Haxis (startPoint 0 0) = _
    rw [startPoint_0_0, rot180 Haxis norm_Haxis]
    unfold Haxis
    simp only [Vec3.dot]
    ext <;> simp <;> field_simp
  have hH1 : rotEnd Scenes.H1 = ⟨-1, 0, 0⟩ := by
    show rotateAboutOrigin ((180 : ℝ) * DEGREES) Haxis (startPoint 0 180) = _
    rw [startPoint_0_180, rot180 Haxis norm_Haxis]
    unfold Haxis
    simp only [Vec3.dot]
    ext <;> simp <;> field_simp
  exact ⟨⟨startPoint_0_0, hX0, rfl⟩, ⟨startPoint_0_180, hX1, rfl⟩,
    ⟨startPoint_0_0, hY0, rfl⟩, ⟨startPoint_0_180, hY1, rfl⟩,
    ⟨startPoint_0_0, hZ0, rfl⟩, ⟨startPoint_0_180, hZ1, rfl⟩,
    ⟨startPoint_0_0, hH0, rfl⟩, ⟨startPoint_0_180, hH1, rfl⟩⟩

/-- C5: when the tracker reaches `rotate_angle`, the moving vector's tip is
the start point rotated by `rotate_angle` degrees about the unit axis, the
moving label sits at 1.25 times that rotated point, and that is exactly the
position at which the end label was placed: the label swap happens where the
vector ends. -/
theorem C5_label_swap_at_vector_end (point axis : Vec3) (angle : ℝ)
    (ha : Vec3.norm axis = 1) :
    vecTip point axis angle = rotateAboutOrigin (angle * DEGREES) axis point ∧
    statePsiPos point axis angle =
      (1.25 : ℝ) • rotateAboutOrigin (angle * DEGREES) axis point ∧
    statePsiPos point axis angle = statePsiEndPos point axis angle := by
  refine ⟨rfl, ?_, rfl⟩
  unfold statePsiPos rotateAboutOrigin
  exact rodrigues_smul _ _ _ _

/-- Witness for C5: the unit-axis hypothesis holds for `[0, 0, 1]`, and the
moving label of a point at `[1, 0, 0]` rotated by 180 degrees sits at 1.25
times the rotated point. -/
theorem C5_label_swap_at_vector_end_witness :
    Vec3.norm ⟨0, 0, 1⟩ = 1 ∧
    statePsiPos ⟨1, 0, 0⟩ ⟨0, 0, 1⟩ 180 =
      (1.25 : ℝ) • rotateAboutOrigin ((180 : ℝ) * DEGREES) ⟨0, 0, 1⟩ ⟨1, 0, 0⟩ := by
  have h : Vec3.norm (⟨0, 0, 1⟩ : Vec3) = 1 := by
    rw [Vec3.norm_eq_one_iff]
    simp [Vec3.dot]
  exact ⟨h, (C5_label_swap_at_vector_end ⟨1, 0, 0⟩ ⟨0, 0, 1⟩ 180 h).2.1⟩

/-- C9: with a unit rotation axis and nonzero in-plane radius, the frame
(x, y, z) computed in `qubit` is right-handed orthonormal in exact real
arithmetic: all three vectors are unit, they are pairwise orthogonal,
`y = z × x` and `x × y = z`, so the matrix with rows x, y, z is a rotation
matrix, as `R.from_matrix` requires. -/
theorem C9_frame_right_handed_orthonormal (p z : Vec3)
    (hz : Vec3.norm z = 1) (hr : rComp p z ≠ 0) :
    Vec3.norm (xComp p z) = 1 ∧ Vec3.norm (yComp p z) = 1 ∧
    Vec3.norm z = 1 ∧
    Vec3.dot (xComp p z) (yComp p z) = 0 ∧
    Vec3.dot (xComp p z) z = 0 ∧
    Vec3.dot (yComp p z) z = 0 ∧
    yComp p z = Vec3.cross z (xComp p z) ∧
    Vec3.cross (xComp p z) (yComp p z) = z := by
  have hzz : Vec3.dot z z = 1 := (Vec3.norm_eq_one_iff z).mp hz
  have hrnn : 0 ≤ rComp p z := Vec3.norm_nonneg _
  have hxnorm : Vec3.norm (xComp p z) = 1 := by
    unfold xComp
    rw [norm_smul_abs, abs_inv, abs_of_nonneg hrnn]
    show (rComp p z)⁻¹ * rComp p z = 1
    exact inv_mul_cancel₀ hr
  have hxx : Vec3.dot (xComp p z) (xComp p z) = 1 :=
    (Vec3.norm_eq_one_iff _).mp hxnorm
  have hxz : Vec3.dot (xComp p z) z = 0 := by
    have h0 : Vec3.dot (xRaw p z) z = 0 := by
      unfold Vec3.dot at hzz
      unfold xRaw Vec3.dot
      simp only [Vec3.sub_x, Vec3.sub_y, Vec3.sub_z, Vec3.smul_x, Vec3.smul_y,
        Vec3.smul_z]
      linear_combination (-(p.x * z.x + p.y * z.y + p.z * z.z)) * hzz
    unfold xComp
    rw [dot_smul_left, h0, mul_zero]
  have hzx : Vec3.dot z (xComp p z) = 0 := by
    rw [dot_comm]; exact hxz
  have hyy : Vec3.dot (yComp p z) (yComp p z) = 1 := by
    unfold yComp
    rw [dot_cross_lagrange, hzz, hxx, hzx]
    norm_num
  have hynorm : Vec3.norm (yComp p z) = 1 := (Vec3.norm_eq_one_iff _).mpr hyy
  have hxy : Vec3.dot (xComp p z) (yComp p z) = 0 := by
    unfold yComp
    exact dot_cross_self_right z (xComp p z)
  have hyz : Vec3.dot (yComp p z) z = 0 := by
    unfold yComp
    exact dot_cross_left_self z (xComp p z)
  have hcross : Vec3.cross (xComp p z) (yComp p z) = z := by
    unfold yComp
    rw [cross_cross, hxx, hxz]
    ext <;> simp
  exact ⟨hxnorm, hynorm, hz, hxy, hxz, hyz, rfl, hcross⟩

/-- Witness for C9: both hypotheses hold for the point `[1, 0, 0]` and axis
`[0, 0, 1]`, and the computed frame there is right-handed orthonormal. -/
theorem C9_frame_right_handed_orthonormal_witness :
    Vec3.norm ⟨0, 0, 1⟩ = 1 ∧ rComp ⟨1, 0, 0⟩ ⟨0, 0, 1⟩ ≠ 0 ∧
    (Vec3.norm (xComp ⟨1, 0, 0⟩ ⟨0, 0, 1⟩) = 1 ∧
     Vec3.norm (yComp ⟨1, 0, 0⟩ ⟨0, 0, 1⟩) = 1 ∧
     Vec3.norm ⟨0, 0, 1⟩ = 1 ∧
     Vec3.dot (xComp ⟨1, 0, 0⟩ ⟨0, 0, 1⟩) (yComp ⟨1, 0, 0⟩ ⟨0, 0, 1⟩) = 0 ∧
     Vec3.dot (xComp ⟨1, 0, 0⟩ ⟨0, 0, 1⟩) ⟨0, 0, 1⟩ = 0 ∧
     Vec3.dot (yComp ⟨1, 0, 0⟩ ⟨0, 0, 1⟩) ⟨0, 0, 1⟩ = 0 ∧
     yComp ⟨1, 0, 0⟩ ⟨0, 0, 1⟩ = Vec3.cross ⟨0, 0, 1⟩ (xComp ⟨1, 0, 0⟩ ⟨0, 0, 1⟩) ∧
     Vec3.cross (xComp ⟨1, 0, 0⟩ ⟨0, 0, 1⟩) (yComp ⟨1, 0, 0⟩ ⟨0, 0, 1⟩) = ⟨0, 0, 1⟩) := by
  have hz : Vec3.norm (⟨0, 0, 1⟩ : Vec3) = 1 := by
    rw [Vec3.norm_eq_one_iff]
    simp [Vec3.dot]
  have hr1 : rComp ⟨1, 0, 0⟩ ⟨0, 0, 1⟩ = 1 := by
    unfold rComp
    rw [Vec3.norm_eq_one_iff]
    unfold xRaw
    simp [Vec3.dot]
  have hr : rComp ⟨1, 0, 0⟩ ⟨0, 0, 1⟩ ≠ 0 := by
    rw [hr1]; norm_num
  exact ⟨hz, hr, C9_frame_right_handed_orthonormal ⟨1, 0, 0⟩ ⟨0, 0, 1⟩ hz hr⟩

/-- C2: with a unit rotation axis `z` and a nonzero in-plane radius, the arc
glyph coincides with the trajectory of the rotating vector's tip: for every
angle `t`, the endpoint of `Arc(r, 0, t)` drawn in the horizontal plane,
shifted to height `point·z` and rotated about the origin by `-norm rotvec`
about `rotvec`, equals the start point rotated by `t` about `z` - where
`rotvec` is the rotation vector scipy computes from the frame `[x, y, z]`. -/
theorem C2_arc_glyph_matches_trajectory (p z rv : Vec3) (t : ℝ)
    (hz : Vec3.norm z = 1) (hr : rComp p z ≠ 0)
    (hrv : IsRotvecOfFrame (xComp p z) (yComp p z) z rv) :
    arcGlyphTip (rComp p z) (Vec3.dot p z) (-(Vec3.norm rv)) rv t =
      rotateAboutOrigin t z p := by
  obtain ⟨h1, h2, h3⟩ := hrv
  unfold rotateAboutOrigin at h1 h2 h3
  have hV : arcTip (rComp p z) t (Vec3.dot p z) =
      rodrigues (Vec3.normalize rv) (Vec3.norm rv)
        ((rComp p z * Real.cos t) • xComp p z +
         (rComp p z * Real.sin t) • yComp p z +
         Vec3.dot p z • z) := by
    rw [rodrigues_combo, h1, h2, h3]
    unfold arcTip
    ext <;> simp
  unfold arcGlyphTip rotateAboutOrigin
  rw [hV]
  have hinv := rotateAboutOrigin_norm_inv rv
      ((rComp p z * Real.cos t) • xComp p z +
       (rComp p z * Real.sin t) • yComp p z +
       Vec3.dot p z • z)
  unfold rotateAboutOrigin at hinv
  rw [hinv, Vec3.normalize_eq_self z hz]
  unfold yComp xComp xRaw rodrigues Vec3.cross Vec3.dot
  ext <;> simp <;> field_simp <;> ring

/-- Witness for C2: all three hypotheses hold concretely for the point
`[1, 0, 0]`, the axis `[0, 0, 1]` and the zero rotation vector (whose frame
is already the standard basis), and the arc endpoint at `t = 0` agrees with
the unrotated start point. -/
theorem C2_arc_glyph_matches_trajectory_witness :
    Vec3.norm ⟨0, 0, 1⟩ = 1 ∧ rComp ⟨1, 0, 0⟩ ⟨0, 0, 1⟩ ≠ 0 ∧
    IsRotvecOfFrame (xComp ⟨1, 0, 0⟩ ⟨0, 0, 1⟩) (yComp ⟨1, 0, 0⟩ ⟨0, 0, 1⟩)
      ⟨0, 0, 1⟩ 0 ∧
    arcGlyphTip (rComp ⟨1, 0, 0⟩ ⟨0, 0, 1⟩) (Vec3.dot ⟨1, 0, 0⟩ ⟨0, 0, 1⟩)
        (-(Vec3.norm (0 : Vec3))) 0 0 =
      rotateAboutOrigin 0 ⟨0, 0, 1⟩ ⟨1, 0, 0⟩ := by
  have hz : Vec3.norm (⟨0, 0, 1⟩ : Vec3) = 1 := by
    rw [Vec3.norm_eq_one_iff]
    simp [Vec3.dot]
  have hr1 : rComp ⟨1, 0, 0⟩ ⟨0, 0, 1⟩ = 1 := by
    unfold rComp
    rw [Vec3.norm_eq_one_iff]
    unfold xRaw
    simp [Vec3.dot]
  have hr : rComp ⟨1, 0, 0⟩ ⟨0, 0, 1⟩ ≠ 0 := by
    rw [hr1]; norm_num
  have hx : xComp ⟨1, 0, 0⟩ ⟨0, 0, 1⟩ = ⟨1, 0, 0⟩ := by
    unfold xComp
    rw [hr1, inv_one]
    unfold xRaw
    ext <;> simp [Vec3.dot]
  have hy : yComp ⟨1, 0, 0⟩ ⟨0, 0, 1⟩ = ⟨0, 1, 0⟩ := by
    unfold yComp
    rw [hx]
    unfold Vec3.cross
    ext <;> simp
  have hrv : IsRotvecOfFrame (xComp ⟨1, 0, 0⟩ ⟨0, 0, 1⟩)
      (yComp ⟨1, 0, 0⟩ ⟨0, 0, 1⟩) ⟨0, 0, 1⟩ 0 := by
    unfold IsRotvecOfFrame rotateAboutOrigin
    simp only [Vec3.norm_zero, rodrigues_zero_angle]
    exact ⟨hx, hy, trivial⟩
  exact ⟨hz, hr, hrv,
    C2_arc_glyph_matches_trajectory ⟨1, 0, 0⟩ ⟨0, 0, 1⟩ 0 0 hz hr hrv⟩

end Qubits
